import Mathlib

set_option maxHeartbeats 1000000

/-!
Verification of the Leo middle-end passes (SSA construction, return/finalize
flattening, code generation) and the output-file writer, against their
natural-language specification.  The definitions below are shallow embeddings
of the Rust sources under `src/`; parts of the repository that are referenced
but not shipped (the rename table, the unique symbol generator, the guard
folding helper, the code-generator expression emitter) are modelled from the
specification, and each such definition says so in its doc comment.
-/

namespace LeoMiddleEnd

abbrev Symbol := String

/-! ## Rename table and unique symbol generator (SSA infrastructure) -/

/-- Modelled from the spec: the rename table (`rename_table.rs` is not under
`src/`).  A stack of frames, each mapping a source name to its currently
visible unique name; `lookup` walks frames top to bottom and returns the
first binding found, `update` writes to the top frame. -/
structure RenameTable where
  frames : List (List (Symbol × Symbol))
deriving Repr

def framesLookup : List (List (Symbol × Symbol)) → Symbol → Option Symbol
  | [], _ => none
  | f :: rest, x =>
    match f.lookup x with
    | some y => some y
    | none => framesLookup rest x

def RenameTable.lookup (t : RenameTable) (x : Symbol) : Option Symbol :=
  framesLookup t.frames x

def RenameTable.update (t : RenameTable) (x y : Symbol) : RenameTable :=
  match t.frames with
  | [] => ⟨[[(x, y)]]⟩
  | f :: rest => ⟨((x, y) :: f) :: rest⟩

/-- Modelled from the spec: the unique symbol generator
(`static_single_assigner.rs` is not under `src/`) produces a fresh name of
the form `<original-or-prefix>$<counter>` with a monotonic counter. -/
def uniqueSymbol (base : Symbol) (counter : Nat) : Symbol :=
  base ++ "$" ++ toString counter

/-! ## AST model

Expressions and statements as used by the SSA pass (`rename_expression.rs`),
the flattening pass (`flatten_program.rs`) and the code generator
(`visit_statements.rs`).  Spans carry no semantic content for the verified
claims and are omitted.  Nested blocks are not needed by any claim and are
omitted from `Stmt`. -/

mutual
inductive Expr where
  | lit (text : String)
  | ident (name : Symbol)
  | binary (op : String) (left right : Expr)
  | unary (op : String) (receiver : Expr)
  | ternary (condition ifTrue ifFalse : Expr)
  | tuple (elements : List Expr)
  | call (function : Symbol) (arguments : List Expr)
  | circuitInit (name : Symbol) (members : List CircuitVarInit)
  | access (acc : AccessExpr)
  | errExpr

inductive AccessExpr where
  | assocFn (ty : Symbol) (name : Symbol) (args : List Expr)
  | member (inner : Expr) (name : Symbol)
  | tupleIndex (inner : Expr) (index : Nat)

inductive CircuitVarInit where
  | mk (identifier : Symbol) (expression : Option Expr)
end

def CircuitVarInit.identifier : CircuitVarInit → Symbol
  | .mk i _ => i

def CircuitVarInit.expression : CircuitVarInit → Option Expr
  | .mk _ e => e

inductive Stmt where
  | assign (place value : Expr)
  | ret (expression : Expr)
  | finalizeInvoke (arguments : List Expr)
  | increment (mapping : Symbol) (index amount : Expr)
  | decrement (mapping : Symbol) (index amount : Expr)
  | consoleAssert (expression : Expr)
  | consoleAssertEq (left right : Expr)
  | consoleAssertNeq (left right : Expr)
  | definition (place value : Expr)
  | conditionalStmt
  | iterationStmt

/-! ## Symbol table (read-only oracle) -/

/-- A circuit declaration: its identifier and its ordered members, each a
`CircuitMember::CircuitVariable(name, type)` with the type rendered as a
string. -/
structure Circuit where
  identifier : Symbol
  members : List (Symbol × String)
deriving DecidableEq, Repr

abbrev SymTab := List (Symbol × Circuit)

def lookupCircuit (tab : SymTab) (name : Symbol) : Option Circuit :=
  tab.lookup name

/-! ## SSA pass state -/

/-- The mutable state of the `StaticSingleAssigner`: the unique-name counter,
the rename table, the `is_lhs` flag, and the secondary `circuits` map from a
fresh name to the composite type it was initialized with. -/
structure St where
  counter : Nat
  renameTable : RenameTable
  isLhs : Bool
  circuits : List (Symbol × Symbol)
deriving Repr

/-- Modelled from the spec: `unique_simple_assign_statement`
(`static_single_assigner.rs` is not under `src/`) creates a fresh unique
name, an assignment of the expression to that name, and returns the new
place together with the advanced state. -/
def uniqueSimpleAssign (s : St) (e : Expr) : Symbol × Stmt × St :=
  let name := uniqueSymbol "$var" s.counter
  (name, Stmt.assign (Expr.ident name) e, { s with counter := s.counter + 1 })

inductive SsaErr where
  | fuel
  | fail (msg : String)
deriving DecidableEq, Repr

abbrev SsaRes := Except SsaErr (Expr × List Stmt × St)

/-- Consumes an identifier, following `consume_identifier` in
`rename_expression.rs`: on the left-hand side a fresh unique name is
generated and recorded in the rename table; on the right-hand side the name
is resolved through the rename table and passed through unchanged when no
binding exists (the commented-out panic in the source). -/
def consumeIdentifier (s : St) (x : Symbol) : Expr × List Stmt × St :=
  match s.isLhs with
  | true =>
    let newName := uniqueSymbol x s.counter
    (Expr.ident newName, [],
      { s with counter := s.counter + 1,
               renameTable := s.renameTable.update x newName })
  | false => (Expr.ident ((s.renameTable.lookup x).getD x), [], s)

/-- The default arm of `consume_ternary`: a single scalar ternary is bound to
a fresh name via `unique_simple_assign_statement` and the fresh identifier is
returned. -/
def scalarTernary (s : St) (stmts : List Stmt)
    (condExpr ifTrueExpr ifFalseExpr : Expr) : SsaRes :=
  let (place, stmt, s') :=
    uniqueSimpleAssign s (Expr.ternary condExpr ifTrueExpr ifFalseExpr)
  .ok (Expr.ident place, stmts ++ [stmt], s')

/-! ## The SSA expression consumer

A fuel-indexed embedding of `ExpressionConsumer for StaticSingleAssigner`
(`rename_expression.rs`).  The Rust functions are mutually recursive through
constructed expressions (the ternary cases), so termination is by an explicit
fuel argument; `SsaErr.fuel` marks exhaustion and `SsaErr.fail` marks the
panics (`unreachable!`, `unwrap`, `assert_eq!`, `zip_eq`) of the source. -/

mutual

def consumeExpression (tab : SymTab) : Nat → St → Expr → SsaRes
  | 0, _, _ => .error .fuel
  | _ + 1, s, Expr.lit text => .ok (Expr.lit text, [], s)
  | _ + 1, s, Expr.ident x => .ok (consumeIdentifier s x)
  | n + 1, s, Expr.binary op l r => consumeBinary tab n s op l r
  | n + 1, s, Expr.unary op r => consumeUnary tab n s op r
  | n + 1, s, Expr.ternary c t f => consumeTernary tab n s c t f
  | n + 1, s, Expr.tuple es => consumeTuple tab n s es
  | n + 1, s, Expr.call fn args => consumeCall tab n s fn args
  | n + 1, s, Expr.circuitInit name ms => consumeCircuitInit tab n s name ms
  | n + 1, s, Expr.access a => consumeAccess tab n s a
  | _ + 1, _, Expr.errExpr =>
    .error (.fail "ErrExpressions should not be in the AST at this phase of compilation")

def consumeBinary (tab : SymTab) : Nat → St → String → Expr → Expr → SsaRes
  | 0, _, _, _, _ => .error .fuel
  | n + 1, s, op, l, r => do
    let (leftExpression, st1, s1) ← consumeExpression tab n s l
    let (rightExpression, st2, s2) ← consumeExpression tab n s1 r
    let (place, stmt, s3) :=
      uniqueSimpleAssign s2 (Expr.binary op leftExpression rightExpression)
    .ok (Expr.ident place, st1 ++ st2 ++ [stmt], s3)

def consumeUnary (tab : SymTab) : Nat → St → String → Expr → SsaRes
  | 0, _, _, _ => .error .fuel
  | n + 1, s, op, r => do
    let (receiver, st1, s1) ← consumeExpression tab n s r
    let (place, stmt, s2) := uniqueSimpleAssign s1 (Expr.unary op receiver)
    .ok (Expr.ident place, st1 ++ [stmt], s2)

def consumeCall (tab : SymTab) : Nat → St → Symbol → List Expr → SsaRes
  | 0, _, _, _ => .error .fuel
  | n + 1, s, fn, args => do
    let (arguments, st, s1) ← consumeExpressionList tab n s args
    let (place, stmt, s2) := uniqueSimpleAssign s1 (Expr.call fn arguments)
    .ok (Expr.ident place, st ++ [stmt], s2)

def consumeTuple (tab : SymTab) : Nat → St → List Expr → SsaRes
  | 0, _, _ => .error .fuel
  | n + 1, s, es => do
    let (elements, st, s1) ← consumeExpressionList tab n s es
    .ok (Expr.tuple elements, st, s1)

def consumeCircuitInit (tab : SymTab) : Nat → St → Symbol → List CircuitVarInit → SsaRes
  | 0, _, _, _ => .error .fuel
  | n + 1, s, name, ms => do
    let (members, st, s1) ← consumeMembers tab n s ms
    let (place, stmt, s2) := uniqueSimpleAssign s1 (Expr.circuitInit name members)
    .ok (Expr.ident place, st ++ [stmt],
         { s2 with circuits := (place, name) :: s2.circuits })

def consumeMembers (tab : SymTab) :
    Nat → St → List CircuitVarInit → Except SsaErr (List CircuitVarInit × List Stmt × St)
  | 0, _, _ => .error .fuel
  | _ + 1, s, [] => .ok ([], [], s)
  | n + 1, s, CircuitVarInit.mk id optE :: rest => do
    let (expression, st1, s1) ←
      (match optE with
       | none => Except.ok (consumeIdentifier s id)
       | some e => consumeExpression tab n s e)
    let (rest', st2, s2) ← consumeMembers tab n s1 rest
    .ok (CircuitVarInit.mk id (some expression) :: rest', st1 ++ st2, s2)

def consumeAccess (tab : SymTab) : Nat → St → AccessExpr → SsaRes
  | 0, _, _ => .error .fuel
  | n + 1, s, AccessExpr.assocFn ty nm args => do
    let (args', st, s1) ← consumeExpressionList tab n s args
    let (place, stmt, s2) :=
      uniqueSimpleAssign s1 (Expr.access (AccessExpr.assocFn ty nm args'))
    .ok (Expr.ident place, st ++ [stmt], s2)
  | n + 1, s, AccessExpr.member inner nm => do
    let (inner', st, s1) ← consumeExpression tab n s inner
    let (place, stmt, s2) :=
      uniqueSimpleAssign s1 (Expr.access (AccessExpr.member inner' nm))
    .ok (Expr.ident place, st ++ [stmt], s2)
  | n + 1, s, AccessExpr.tupleIndex inner i => do
    let (inner', st, s1) ← consumeExpression tab n s inner
    let (place, stmt, s2) :=
      uniqueSimpleAssign s1 (Expr.access (AccessExpr.tupleIndex inner' i))
    .ok (Expr.ident place, st ++ [stmt], s2)

def consumeExpressionList (tab : SymTab) :
    Nat → St → List Expr → Except SsaErr (List Expr × List Stmt × St)
  | 0, _, _ => .error .fuel
  | _ + 1, s, [] => .ok ([], [], s)
  | n + 1, s, e :: rest => do
    let (e', st1, s1) ← consumeExpression tab n s e
    let (rest', st2, s2) ← consumeExpressionList tab n s1 rest
    .ok (e' :: rest', st1 ++ st2, s2)

def consumeTernary (tab : SymTab) : Nat → St → Expr → Expr → Expr → SsaRes
  | 0, _, _, _, _ => .error .fuel
  | n + 1, s, condition, ifTrue, ifFalse => do
    let (condExpr, st1, s1) ← consumeExpression tab n s condition
    let (ifTrueExpr, st2, s2) ← consumeExpression tab n s1 ifTrue
    let (ifFalseExpr, st3, s3) ← consumeExpression tab n s2 ifFalse
    let stmts := st1 ++ st2 ++ st3
    match ifTrueExpr, ifFalseExpr with
    | Expr.tuple first, Expr.tuple second =>
      if first.length = second.length then do
        let (elements, st4, s4) ←
          ternaryElements tab n s3 condExpr (first.zip second)
        .ok (Expr.tuple elements, stmts ++ st4, s4)
      else .error (.fail "zip_eq: tuple lengths differ")
    | Expr.ident first, Expr.ident second =>
      if (s3.circuits.lookup first).isSome && (s3.circuits.lookup second).isSome then
        match s3.circuits.lookup first, s3.circuits.lookup second with
        | some tyFirst, some tySecond =>
          (match lookupCircuit tab tyFirst, lookupCircuit tab tySecond with
           | some firstCircuit, some secondCircuit =>
             if firstCircuit = secondCircuit then do
               let (members, st4, s4) ←
                 ternaryMembers tab n s3 condExpr first second firstCircuit.members
               let (expr, st5, s5) ←
                 consumeCircuitInit tab n s4 firstCircuit.identifier members
               .ok (expr, stmts ++ st4 ++ st5, s5)
             else .error (.fail "assert_eq: first_circuit != second_circuit")
           | _, _ => .error (.fail "unwrap: lookup_circuit"))
        | _, _ => .error (.fail "unwrap: circuits.get")
      else scalarTernary s3 stmts condExpr (Expr.ident first) (Expr.ident second)
    | tE, fE => scalarTernary s3 stmts condExpr tE fE

def ternaryElements (tab : SymTab) :
    Nat → St → Expr → List (Expr × Expr) → Except SsaErr (List Expr × List Stmt × St)
  | 0, _, _, _ => .error .fuel
  | _ + 1, s, _, [] => .ok ([], [], s)
  | n + 1, s, condExpr, (ifTrue, ifFalse) :: rest => do
    let (e, st1, s1) ← consumeTernary tab n s condExpr ifTrue ifFalse
    let (es, st2, s2) ← ternaryElements tab n s1 condExpr rest
    .ok (e :: es, st1 ++ st2, s2)

def ternaryMembers (tab : SymTab) :
    Nat → St → Expr → Symbol → Symbol → List (Symbol × String) →
    Except SsaErr (List CircuitVarInit × List Stmt × St)
  | 0, _, _, _, _, _ => .error .fuel
  | _ + 1, s, _, _, _, [] => .ok ([], [], s)
  | n + 1, s, condExpr, first, second, (id, _) :: rest => do
    let (e, st1, s1) ← consumeTernary tab n s condExpr
        (Expr.access (AccessExpr.member (Expr.ident first) id))
        (Expr.access (AccessExpr.member (Expr.ident second) id))
    let (ms, st2, s2) ← ternaryMembers tab n s1 condExpr first second rest
    .ok (CircuitVarInit.mk id (some e) :: ms, st1 ++ st2, s2)

end

/-! ## The flatten pass (`flatten_program.rs`)

`reconstruct_function` flattens the finalize block first, folds the early
returns of the finalize block and of the function body, and folds the
per-argument-position finalize accumulators, appending a single terminal
`Return` and a single terminal `Finalize` invocation to the function body.
The calls to `self.reconstruct_block`, `self.clear_early_returns` and
`self.clear_early_finalizes` live in flattener files that are not under
`src/`, so the reconstructed blocks and the drained accumulators are taken
as parameters here; the folding and appending logic follows
`flatten_program.rs` lines 25-120. -/

/-- Modelled from the spec: `fold_guards` (the `Flattener` helper is not
under `src/`).  For `[(g1, v1), ..., (gn, vn)]` the last guard is ignored,
the list is folded right to left as `acc := gi ? vi : acc`, and each
intermediate ternary is materialized as a fresh assignment named with the
given prefix and the monotonic counter, appended in order of creation.  The
source only ever invokes it on a non-empty accumulator. -/
def foldGuards (pre : String) : Nat → List (Expr × Expr) → Expr × List Stmt × Nat
  | c, [] => (Expr.lit "unit", [], c)
  | c, [(_, last)] => (last, [], c)
  | c, (guard, value) :: rest =>
    let (acc, stmts, c') := foldGuards pre c rest
    let name := pre ++ toString c'
    (Expr.ident name,
     stmts ++ [Stmt.assign (Expr.ident name) (Expr.ternary guard value acc)],
     c' + 1)

/-- Folds one early-return accumulator into a block: when the accumulator is
empty the block is returned unchanged, otherwise the fold statements and a
single `Return` of the folded expression are appended (the `if
!returns.is_empty()` branches of `reconstruct_function`). -/
def flattenFold (pre : String) (c : Nat) (block : List Stmt)
    (returns : List (Expr × Expr)) : List Stmt × Nat :=
  if returns.isEmpty then (block, c)
  else
    let (expression, stmts, c') := foldGuards pre c returns
    (block ++ stmts ++ [Stmt.ret expression], c')

/-- Folds the finalize accumulator components in argument-position order,
each with prefix `fin$<i>$`, returning the folded argument expressions and
the accumulated fold statements. -/
def foldFinalizes : Nat → Nat → List (List (Expr × Expr)) → List Expr × List Stmt × Nat
  | _, c, [] => ([], [], c)
  | i, c, component :: rest =>
    let (e, stmts, c') := foldGuards ("fin$" ++ toString i ++ "$") c component
    let (es, stmts', c'') := foldFinalizes (i + 1) c' rest
    (e :: es, stmts ++ stmts', c'')

/-- The output of flattening one function: the flattened finalize block (if
any), the flattened body, and the final unique-name counter. -/
structure FlatFunction where
  finalizeBlock : Option (List Stmt)
  body : List Stmt
  counter : Nat

/-- Embedding of `reconstruct_function` (`flatten_program.rs`): the finalize
block is folded first from the initial counter; then the function body's
early returns are folded and a terminal `Return` appended; then, when any
finalize accumulator position is non-empty, the per-position folds are
appended followed by a terminal `Finalize` invocation. -/
def reconstructFunction (c0 : Nat)
    (finalizePart : Option (List Stmt × List (Expr × Expr)))
    (bodyStmts : List Stmt)
    (bodyReturns : List (Expr × Expr))
    (bodyFinalizes : List (List (Expr × Expr))) : FlatFunction :=
  let finPass : Option (List Stmt) × Nat :=
    match finalizePart with
    | none => (none, c0)
    | some (blk, rets) =>
      let (blk', c') := flattenFold "ret$" c0 blk rets
      (some blk', c')
  let (body1, c2) := flattenFold "ret$" finPass.2 bodyStmts bodyReturns
  if bodyFinalizes.any (fun component => !component.isEmpty) then
    let (arguments, finStmts, c3) := foldFinalizes 0 c2 bodyFinalizes
    { finalizeBlock := finPass.1,
      body := body1 ++ finStmts ++ [Stmt.finalizeInvoke arguments],
      counter := c3 }
  else
    { finalizeBlock := finPass.1, body := body1, counter := c2 }

/-! ## The code generator (`visit_type.rs`, `visit_statements.rs`) -/

inductive ParamMode where
  | priv
  | pub
deriving DecidableEq, Repr

def ParamMode.display : ParamMode → String
  | .priv => "private"
  | .pub => "public"

inductive LType where
  | address | boolean | field | group | scalar | strTy
  | i8 | i16 | i32 | i64 | i128
  | u8 | u16 | u32 | u64 | u128
  | identifier (name : Symbol)
  | tuple (elements : List LType)
  | errTy

/-- Display of a type, as used by `format!("{}", input)` for the primitive
arms of `visit_type`; the identifier arm mirrors `Display` for
`Type::Identifier`, which prints the name. -/
def LType.display : LType → String
  | .address => "address"
  | .boolean => "boolean"
  | .field => "field"
  | .group => "group"
  | .scalar => "scalar"
  | .strTy => "string"
  | .i8 => "i8"
  | .i16 => "i16"
  | .i32 => "i32"
  | .i64 => "i64"
  | .i128 => "i128"
  | .u8 => "u8"
  | .u16 => "u16"
  | .u32 => "u32"
  | .u64 => "u64"
  | .u128 => "u128"
  | .identifier name => name
  | .tuple _ => "tuple"
  | .errTy => "err"

inductive CgErr where
  | bug (msg : String)
deriving DecidableEq, Repr

abbrev CompositeMapping := List (Symbol × String)

/-- Embedding of `to_lowercase()` on identifier names, character by
character. -/
def lowerString (s : String) : String := String.mk (s.data.map Char.toLower)

def splitNewlinesAux : List Char → List (List Char)
  | [] => [[]]
  | c :: rest =>
    if c = '\n' then [] :: splitNewlinesAux rest
    else
      match splitNewlinesAux rest with
      | [] => [[c]]
      | g :: gs => (c :: g) :: gs

/-- Embedding of `operand.split('\n')`: the newline-separated components of
a string, with the empty string yielding one empty component. -/
def splitNewlines (s : String) : List String :=
  (splitNewlinesAux s.data).map String.mk

/-- Embedding of `visit_type`: primitive types emit their lowercase keyword;
a composite identifier emits the lowercased name, a dot, and the suffix
found in the composite mapping; tuple and error types are `unreachable!`. -/
def visitType (cm : CompositeMapping) (t : LType) : Except CgErr String :=
  match t with
  | .identifier ident =>
    match cm.lookup ident with
    | some suffix => .ok (lowerString ident ++ "." ++ suffix)
    | none => .error (.bug "All composite types should be known at this phase of compilation")
  | .tuple _ => .error (.bug "All composite types should be known at this phase of compilation")
  | .errTy => .error (.bug "Error types should not exist at this phase of compilation")
  | prim => .ok prim.display

/-- Embedding of `visit_type_with_visibility`: nothing is appended for
composite (identifier) types; every other emitted type gets a dot and the
visibility, defaulting to `private`. -/
def visitTypeWithVisibility (cm : CompositeMapping) (t : LType)
    (visibility : Option ParamMode) : Except CgErr String := do
  let typeString ← visitType cm t
  match t with
  | .identifier _ => .ok typeString
  | _ => .ok (typeString ++ "." ++ (visibility.getD ParamMode.priv).display)

/-- Embedding of `visit_return_type`: a tuple return type yields one
visibility-annotated type per member, anything else yields a singleton. -/
def visitReturnType (cm : CompositeMapping) (t : LType)
    (visibility : Option ParamMode) : Except CgErr (List String) :=
  match t with
  | .tuple types => types.mapM (fun ty => visitTypeWithVisibility cm ty visibility)
  | _ => do
    let one ← visitTypeWithVisibility cm t visibility
    .ok [one]

/-- The per-function code generator state: the variable mapping from source
atomic name to emitted operand, the composite mapping, and the current
function's output type (`current_function`). -/
structure CgState where
  variableMapping : List (Symbol × String)
  compositeMapping : CompositeMapping
  outputType : LType

/-- Modelled from the spec: the code-generator expression emitter
(`visit_expressions.rs` is not under `src/`).  Emission produces
`(operand_string, instruction_lines)`: an identifier resolves through the
variable mapping, a literal emits its own text, and a tuple aggregate yields
its elements' operands joined by newlines (the return emitter splits on
newlines for tuple aggregates).  After SSA, tuple elements are atomic, and
no other expression form reaches the emitter in the verified claims. -/
def visitExpression (vm : List (Symbol × String)) : Expr → Except CgErr (String × String)
  | .ident x => .ok ((vm.lookup x).getD x, "")
  | .lit text => .ok (text, "")
  | .tuple elements => do
    let operands ← elements.mapM (fun e =>
      match e with
      | Expr.ident x => Except.ok (((vm.lookup x).getD x : String))
      | Expr.lit text => Except.ok text
      | _ => Except.error (CgErr.bug "non-atomic tuple element in code generation"))
    .ok (String.intercalate "\n" operands, "")
  | _ => .error (.bug "non-atomic expression in code generation")

/-- The `output` lines built by `visit_return`: the newline-separated
components of the operand are zipped with the return-type components, and
each pair becomes a 4-space indented `output <operand> as <type>;` line. -/
def returnOutputLines (operand : String) (types : List String) : List String :=
  ((splitNewlines operand).zip types).map
    (fun p => "    output " ++ p.1 ++ " as " ++ p.2 ++ ";\n")

/-- Embedding of `visit_return` (`visit_statements.rs` lines 43-57): the
return expression is emitted, the return type is annotated with `private`
visibility, and the zipped `output` lines are appended to the expression's
instructions. -/
def visitReturn (cg : CgState) (e : Expr) : Except CgErr String := do
  let (operand, expressionInstructions) ← visitExpression cg.variableMapping e
  let types ← visitReturnType cg.compositeMapping cg.outputType (some ParamMode.priv)
  .ok (expressionInstructions ++ String.join (returnOutputLines operand types))

/-- Embedding of `visit_assign`: only identifier places are implemented; the
RHS operand is recorded in the variable mapping and the RHS instructions are
returned. -/
def visitAssign (cg : CgState) (place value : Expr) : Except CgErr (String × CgState) :=
  match place with
  | .ident identifier => do
    let (operand, expressionInstructions) ← visitExpression cg.variableMapping value
    .ok (expressionInstructions,
         { cg with variableMapping := (identifier, operand) :: cg.variableMapping })
  | _ => .error (.bug "Code generation for the left-hand side of an assignment is only implemented for Identifiers")

/-- Embedding of the `generate_assert_instruction` closure of
`visit_console`. -/
def generateAssertInstruction (cg : CgState) (name : String)
    (left right : Expr) : Except CgErr String := do
  let (leftOperand, leftInstructions) ← visitExpression cg.variableMapping left
  let (rightOperand, rightInstructions) ← visitExpression cg.variableMapping right
  .ok (leftInstructions ++ rightInstructions ++
       "    " ++ name ++ " " ++ leftOperand ++ " " ++ rightOperand ++ ";\n")

/-- Embedding of `visit_statement` (`visit_statements.rs`): the dispatch over
statement kinds.  `Increment`, `Decrement` and `Finalize` are `todo!()` in
the source and are modelled as internal errors carrying the Rust `todo!()`
panic message; `Definition`, `Conditional` and `Iteration` are
`unreachable!` after SSA. -/
def visitStatement (cg : CgState) : Stmt → Except CgErr (String × CgState)
  | .assign p v => visitAssign cg p v
  | .conditionalStmt =>
    .error (.bug "ConditionalStatements should not be in the AST at this phase of compilation")
  | .consoleAssert e => do
    let (operand, instructions) ← visitExpression cg.variableMapping e
    .ok (instructions ++ "    assert.eq " ++ operand ++ " true;\n", cg)
  | .consoleAssertEq l r => do
    let s ← generateAssertInstruction cg "assert.eq" l r
    .ok (s, cg)
  | .consoleAssertNeq l r => do
    let s ← generateAssertInstruction cg "assert.neq" l r
    .ok (s, cg)
  | .decrement _ _ _ => .error (.bug "not yet implemented")
  | .definition _ _ =>
    .error (.bug "DefinitionStatements should not exist in SSA form")
  | .finalizeInvoke _ => .error (.bug "not yet implemented")
  | .increment _ _ _ => .error (.bug "not yet implemented")
  | .iterationStmt =>
    .error (.bug "IterationStatements should not be in the AST at this phase of compilation")
  | .ret e => do
    let s ← visitReturn cg e
    .ok (s, cg)

/-! ## The output-file writer (`src/leo/package/src/outputs/aleo.rs`) -/

/-- A file system modelled as an association from path to content; writing
overwrites any previous entry for the path. -/
abbrev Fs := List (String × String)

def setFile (fs : Fs) (path content : String) : Fs :=
  (path, content) :: fs.filter (fun p => p.1 ≠ path)

def readFile (fs : Fs) (path : String) : Option String :=
  fs.lookup path

/-- The error type of the package writer.  `io_error_aleo_file` is built
from the underlying io error alone (`map_err(PackageError::io_error_aleo_file)`),
so it carries the io message, not the file path;
`failed_to_read_aleo_file` carries the path. -/
inductive PackageErr where
  | ioErrorAleoFile (ioMsg : String)
  | failedToReadAleoFile (path : String)
deriving DecidableEq, Repr

/-- The io behaviour injected into one `write_to` run: whether
`File::create` succeeds, whether `write_all` succeeds, and how many bytes
land in the file when `write_all` fails mid-write. -/
structure IoFault where
  createOk : Bool
  writeOk : Bool
  written : Nat
deriving DecidableEq, Repr

/-- Embedding of `AleoFile::write_to` (`aleo.rs` lines 61-72) on an
already-resolved file path (`setup_file_path` is the identity on a
non-directory path).  `File::create` truncates or creates the file, the
program header `program <package-name>;` and a blank line are prepended to
the bytecode, and `write_all` either stores the whole content or leaves a
truncated portion behind; either io failure is surfaced as
`io_error_aleo_file` and the file is not removed. -/
def writeTo (packageName : String) (fs : Fs) (path : String) (aleo : String)
    (io : IoFault) : Fs × Except PackageErr Unit :=
  if !io.createOk then
    (fs, .error (.ioErrorAleoFile "create failed"))
  else
    let fs1 := setFile fs path ""
    let aleoFile := "program " ++ packageName ++ ";\n\n" ++ aleo
    if io.writeOk then
      (setFile fs1 path aleoFile, .ok ())
    else
      (setFile fs1 path (aleoFile.take io.written), .error (.ioErrorAleoFile "write failed"))

/-! ## Helper lemmas -/

@[simp]
theorem exceptBindOk {ε α β : Type} (a : α) (f : α → Except ε β) :
    (Except.ok a >>= f : Except ε β) = f a := rfl

@[simp]
theorem exceptBindError {ε α β : Type} (e : ε) (f : α → Except ε β) :
    (Except.error e >>= f : Except ε β) = Except.error e := rfl

theorem readFile_setFile (fs : Fs) (path content : String) :
    readFile (setFile fs path content) path = some content := by
  simp [readFile, setFile, List.lookup]

/-! ## C4: identifier consumption -/

/-- C4: on the right-hand side (`is_lhs = false`) an identifier resolves
through the rename table when a binding exists and passes through unchanged
when none does, never failing and producing no statements; on the left-hand
side (`is_lhs = true`) a fresh unique name is generated, recorded in the
rename table, and returned. -/
theorem consume_identifier_spec :
    (∀ (s : St) (x y : Symbol), s.isLhs = false →
       s.renameTable.lookup x = some y →
       consumeIdentifier s x = (Expr.ident y, [], s)) ∧
    (∀ (s : St) (x : Symbol), s.isLhs = false →
       s.renameTable.lookup x = none →
       consumeIdentifier s x = (Expr.ident x, [], s)) ∧
    (∀ (s : St) (x : Symbol), s.isLhs = true →
       consumeIdentifier s x =
         (Expr.ident (uniqueSymbol x s.counter), [],
          { s with counter := s.counter + 1,
                   renameTable := s.renameTable.update x (uniqueSymbol x s.counter) })) := by
  refine ⟨?_, ?_, ?_⟩
  · intro s x y h1 h2
    simp [consumeIdentifier, h1, h2]
  · intro s x h1 h2
    simp [consumeIdentifier, h1, h2]
  · intro s x h1
    simp [consumeIdentifier, h1]

/-- Witness for C4 at concrete inputs: a bound name resolves, an unbound
name passes through, and a left-hand side gets a fresh name. -/
theorem consume_identifier_spec_inst :
    (({ counter := 0, renameTable := ⟨[[("x", "x$0")]]⟩, isLhs := false,
        circuits := [] } : St).renameTable.lookup "x" = some "x$0" ∧
     consumeIdentifier
        { counter := 0, renameTable := ⟨[[("x", "x$0")]]⟩, isLhs := false, circuits := [] } "x" =
        (Expr.ident "x$0", [],
         { counter := 0, renameTable := ⟨[[("x", "x$0")]]⟩, isLhs := false, circuits := [] })) ∧
    (consumeIdentifier
        { counter := 0, renameTable := ⟨[]⟩, isLhs := false, circuits := [] } "free" =
        (Expr.ident "free", [],
         { counter := 0, renameTable := ⟨[]⟩, isLhs := false, circuits := [] })) ∧
    (consumeIdentifier
        { counter := 3, renameTable := ⟨[[]]⟩, isLhs := true, circuits := [] } "x" =
        (Expr.ident "x$3", [],
         { counter := 4, renameTable := ⟨[[("x", "x$3")]]⟩, isLhs := true, circuits := [] })) := by
  refine ⟨⟨by rfl, consume_identifier_spec.1 _ "x" "x$0" rfl rfl⟩, ?_, ?_⟩
  · exact consume_identifier_spec.2.1 _ "free" rfl rfl
  · exact consume_identifier_spec.2.2 _ "x" rfl

/-! ## C6: type emission with visibility -/

/-- C6: type emission with visibility appends `.private` when no visibility
is supplied and the supplied visibility otherwise, for every non-composite
type the generator emits; for a composite (`Type::Identifier`) no trailing
visibility is appended and the emitted string is the lowercased type name,
a dot, and the suffix found in the composite mapping. -/
theorem visit_type_with_visibility_spec :
    (∀ (cm : CompositeMapping) (t : LType) (vis : Option ParamMode) (base : String),
       (∀ name, t ≠ LType.identifier name) →
       visitType cm t = .ok base →
       visitTypeWithVisibility cm t vis =
         .ok (base ++ "." ++ (vis.getD ParamMode.priv).display)) ∧
    (∀ (cm : CompositeMapping) (name : Symbol) (suffix : String) (vis : Option ParamMode),
       cm.lookup name = some suffix →
       visitTypeWithVisibility cm (LType.identifier name) vis =
         .ok (lowerString name ++ "." ++ suffix)) := by
  constructor
  · intro cm t vis base hni hv
    cases t <;> simp_all [visitTypeWithVisibility]
  · intro cm name suffix vis h
    simp [visitTypeWithVisibility, visitType, h]

/-- Witness for C6 at concrete inputs: `u8` with no visibility gets
`.private`, `u8` with public visibility gets `.public`, and a composite
`Token` mapped to `record` emits `token.record` with no visibility. -/
theorem visit_type_with_visibility_spec_inst :
    ((∀ name, LType.u8 ≠ LType.identifier name) ∧
     visitType [] LType.u8 = .ok "u8" ∧
     visitTypeWithVisibility [] LType.u8 none = .ok "u8.private" ∧
     visitTypeWithVisibility [] LType.u8 (some ParamMode.pub) = .ok "u8.public") ∧
    (([("Token", "record")] : CompositeMapping).lookup "Token" = some "record" ∧
     visitTypeWithVisibility [("Token", "record")] (LType.identifier "Token")
        (some ParamMode.pub) = .ok "token.record") := by
  refine ⟨⟨?_, rfl, ?_, ?_⟩, ⟨by rfl, ?_⟩⟩
  · intro name h
    exact LType.noConfusion h
  · exact visit_type_with_visibility_spec.1 [] LType.u8 none "u8"
      (fun name h => LType.noConfusion h) rfl
  · exact visit_type_with_visibility_spec.1 [] LType.u8 (some ParamMode.pub) "u8"
      (fun name h => LType.noConfusion h) rfl
  · exact visit_type_with_visibility_spec.2 [("Token", "record")] "Token" "record"
      (some ParamMode.pub) rfl

/-! ## C7: increment, decrement and finalize code generation -/

/-- C7 (the code, evaluated at the failing inputs): the code generator does
not emit mnemonics for `Increment`, `Decrement` or `Finalize` statements;
all three arms are `todo!()` in the source and halt with the Rust panic
message `not yet implemented`. -/
theorem visit_increment_decrement_finalize_todo :
    visitStatement { variableMapping := [], compositeMapping := [], outputType := LType.u8 }
        (Stmt.increment "account" (Expr.ident "r0") (Expr.lit "1u64")) =
      .error (.bug "not yet implemented") ∧
    visitStatement { variableMapping := [], compositeMapping := [], outputType := LType.u8 }
        (Stmt.decrement "account" (Expr.ident "r0") (Expr.lit "1u64")) =
      .error (.bug "not yet implemented") ∧
    visitStatement { variableMapping := [], compositeMapping := [], outputType := LType.u8 }
        (Stmt.finalizeInvoke [Expr.ident "r0"]) =
      .error (.bug "not yet implemented") :=
  ⟨rfl, rfl, rfl⟩

/-! ## C10: return emission zips operands with types -/

/-- C10: return emission pairs the newline-separated components of the
evaluated operand with the return-type components by zipping, so the number
of emitted `output` lines is the minimum of the operand's component count
and the return type's arity; when the counts differ the surplus is silently
dropped and no error is raised (the result is still `ok`). -/
theorem return_output_zip_spec :
    (∀ (operand : String) (types : List String),
       (returnOutputLines operand types).length =
         min (splitNewlines operand).length types.length) ∧
    (∀ (cg : CgState) (e : Expr) (operand instrs : String) (types : List String),
       visitExpression cg.variableMapping e = .ok (operand, instrs) →
       visitReturnType cg.compositeMapping cg.outputType (some ParamMode.priv) = .ok types →
       visitReturn cg e = .ok (instrs ++ String.join (returnOutputLines operand types))) := by
  constructor
  · intro operand types
    simp [returnOutputLines]
  · intro cg e operand instrs types he ht
    simp [visitReturn, he, ht]

/-- Witness for C10 at a concrete input: a scalar return with a two-component
operand zips down to the single declared output type and still succeeds. -/
theorem return_output_zip_spec_inst :
    (returnOutputLines "a\nb" ["u8.private"]).length =
      min (splitNewlines "a\nb").length (["u8.private"] : List String).length ∧
    visitExpression [] (Expr.tuple [Expr.ident "a", Expr.ident "b"]) = .ok ("a\nb", "") ∧
    visitReturnType [] LType.u8 (some ParamMode.priv) = .ok ["u8.private"] ∧
    visitReturn { variableMapping := [], compositeMapping := [], outputType := LType.u8 }
        (Expr.tuple [Expr.ident "a", Expr.ident "b"]) =
      .ok ("" ++ String.join (returnOutputLines "a\nb" ["u8.private"])) := by
  refine ⟨return_output_zip_spec.1 "a\nb" ["u8.private"], rfl, rfl, ?_⟩
  exact return_output_zip_spec.2
    { variableMapping := [], compositeMapping := [], outputType := LType.u8 }
    (Expr.tuple [Expr.ident "a", Expr.ident "b"]) "a\nb" "" ["u8.private"] rfl rfl

/-! ## C5: output line count versus return-type arity -/

/-- C5 as stated is false on the code: a return whose evaluated operand has
a single component while the function's return type is a tuple of size two
emits one `output` line, not two (the zip silently truncates). -/
theorem return_output_arity_mismatch :
    visitReturn { variableMapping := [], compositeMapping := [],
                  outputType := LType.tuple [LType.u32, LType.boolean] }
        (Expr.ident "r0") =
      .ok "    output r0 as u32.private;\n" ∧
    visitReturnType [] (LType.tuple [LType.u32, LType.boolean]) (some ParamMode.priv) =
      .ok ["u32.private", "boolean.private"] ∧
    (returnOutputLines "r0" ["u32.private", "boolean.private"]).length = 1 ∧
    (1 : Nat) ≠ 2 := by
  refine ⟨?_, rfl, rfl, by decide⟩
  rfl

/-- C5 amended: the emitted bytecode contains `min(components, arity)`
`output` lines, each 4-space indented and `;`-and-newline terminated; the
count equals the return-type arity exactly when the evaluated operand has at
least as many newline-separated components as the arity. -/
theorem return_output_count_min
    (cg : CgState) (e : Expr) (operand instrs : String) (types : List String)
    (he : visitExpression cg.variableMapping e = .ok (operand, instrs))
    (ht : visitReturnType cg.compositeMapping cg.outputType (some ParamMode.priv) = .ok types) :
    visitReturn cg e = .ok (instrs ++ String.join (returnOutputLines operand types)) ∧
    (returnOutputLines operand types).length =
      min (splitNewlines operand).length types.length ∧
    (types.length ≤ (splitNewlines operand).length →
       (returnOutputLines operand types).length = types.length) ∧
    (∀ line ∈ returnOutputLines operand types,
       ∃ op ty, line = "    output " ++ op ++ " as " ++ ty ++ ";\n") := by
  refine ⟨?_, ?_, ?_, ?_⟩
  · simp [visitReturn, he, ht]
  · simp [returnOutputLines]
  · intro h
    simp [returnOutputLines]
    omega
  · intro line hline
    simp [returnOutputLines] at hline
    obtain ⟨op, ty, _, rfl⟩ := hline
    exact ⟨op, ty, rfl⟩

/-- Witness for the amended C5 at a concrete input: a tuple return of two
atomic operands against a tuple return type of arity two emits exactly two
`output` lines. -/
theorem return_output_count_min_inst :
    visitExpression [] (Expr.tuple [Expr.ident "a", Expr.ident "b"]) = .ok ("a\nb", "") ∧
    visitReturnType [] (LType.tuple [LType.u32, LType.boolean]) (some ParamMode.priv) =
      .ok ["u32.private", "boolean.private"] ∧
    visitReturn { variableMapping := [], compositeMapping := [],
                  outputType := LType.tuple [LType.u32, LType.boolean] }
        (Expr.tuple [Expr.ident "a", Expr.ident "b"]) =
      .ok ("" ++ String.join (returnOutputLines "a\nb" ["u32.private", "boolean.private"])) ∧
    (returnOutputLines "a\nb" ["u32.private", "boolean.private"]).length = 2 := by
  have h := return_output_count_min
    { variableMapping := [], compositeMapping := [],
      outputType := LType.tuple [LType.u32, LType.boolean] }
    (Expr.tuple [Expr.ident "a", Expr.ident "b"]) "a\nb" ""
    ["u32.private", "boolean.private"] rfl rfl
  exact ⟨rfl, rfl, h.1, h.2.2.1 (by decide)⟩

/-! ## C3: tuple versus composite-initializer asymmetry -/

/-- C3: consuming a tuple returns the tuple expression itself (elements
consumed, statements accumulated) with no binding to a fresh name, while
consuming a composite initializer binds the rebuilt initializer to a fresh
unique name via a simple assignment, returns that fresh identifier, and
records `fresh_name → composite_type_name` in the secondary circuits map. -/
theorem consume_tuple_circuit_asymmetry :
    (∀ (n : Nat) (tab : SymTab) (s : St) (es elements : List Expr)
       (st : List Stmt) (s1 : St),
       consumeExpressionList tab n s es = .ok (elements, st, s1) →
       consumeTuple tab (n + 1) s es = .ok (Expr.tuple elements, st, s1)) ∧
    (∀ (n : Nat) (tab : SymTab) (s : St) (name : Symbol)
       (ms members : List CircuitVarInit) (st : List Stmt) (s1 : St),
       consumeMembers tab n s ms = .ok (members, st, s1) →
       consumeCircuitInit tab (n + 1) s name ms =
         .ok (Expr.ident (uniqueSymbol "$var" s1.counter),
              st ++ [Stmt.assign (Expr.ident (uniqueSymbol "$var" s1.counter))
                       (Expr.circuitInit name members)],
              { s1 with counter := s1.counter + 1,
                        circuits := (uniqueSymbol "$var" s1.counter, name) :: s1.circuits })) := by
  constructor
  · intro n tab s es elements st s1 h
    simp [consumeTuple, h]
  · intro n tab s name ms members st s1 h
    simp [consumeCircuitInit, h, uniqueSimpleAssign]

/-- Witness for C3 at concrete inputs: a two-element tuple comes back as a
tuple with no binding, while a `Token` initializer is bound to `$var$0` and
recorded in the circuits map. -/
theorem consume_tuple_circuit_asymmetry_inst :
    (consumeExpressionList [] 3
        { counter := 0, renameTable := ⟨[]⟩, isLhs := false, circuits := [] }
        [Expr.lit "1u8", Expr.ident "x"] =
      .ok ([Expr.lit "1u8", Expr.ident "x"], [],
           { counter := 0, renameTable := ⟨[]⟩, isLhs := false, circuits := [] }) ∧
     consumeTuple [] 4
        { counter := 0, renameTable := ⟨[]⟩, isLhs := false, circuits := [] }
        [Expr.lit "1u8", Expr.ident "x"] =
      .ok (Expr.tuple [Expr.lit "1u8", Expr.ident "x"], [],
           { counter := 0, renameTable := ⟨[]⟩, isLhs := false, circuits := [] })) ∧
    (consumeMembers [] 3
        { counter := 0, renameTable := ⟨[]⟩, isLhs := false, circuits := [] }
        [CircuitVarInit.mk "amount" (some (Expr.lit "1u64")), CircuitVarInit.mk "owner" none] =
      .ok ([CircuitVarInit.mk "amount" (some (Expr.lit "1u64")),
            CircuitVarInit.mk "owner" (some (Expr.ident "owner"))], [],
           { counter := 0, renameTable := ⟨[]⟩, isLhs := false, circuits := [] }) ∧
     consumeCircuitInit [] 4
        { counter := 0, renameTable := ⟨[]⟩, isLhs := false, circuits := [] }
        "Token"
        [CircuitVarInit.mk "amount" (some (Expr.lit "1u64")), CircuitVarInit.mk "owner" none] =
      .ok (Expr.ident "$var$0",
           [Stmt.assign (Expr.ident "$var$0")
              (Expr.circuitInit "Token"
                 [CircuitVarInit.mk "amount" (some (Expr.lit "1u64")),
                  CircuitVarInit.mk "owner" (some (Expr.ident "owner"))])],
           { counter := 1, renameTable := ⟨[]⟩, isLhs := false,
             circuits := [("$var$0", "Token")] })) := by
  refine ⟨⟨rfl, ?_⟩, ⟨rfl, ?_⟩⟩
  · exact consume_tuple_circuit_asymmetry.1 3 []
      { counter := 0, renameTable := ⟨[]⟩, isLhs := false, circuits := [] }
      [Expr.lit "1u8", Expr.ident "x"] [Expr.lit "1u8", Expr.ident "x"] []
      { counter := 0, renameTable := ⟨[]⟩, isLhs := false, circuits := [] } rfl
  · exact consume_tuple_circuit_asymmetry.2 3 []
      { counter := 0, renameTable := ⟨[]⟩, isLhs := false, circuits := [] }
      "Token"
      [CircuitVarInit.mk "amount" (some (Expr.lit "1u64")), CircuitVarInit.mk "owner" none]
      [CircuitVarInit.mk "amount" (some (Expr.lit "1u64")),
       CircuitVarInit.mk "owner" (some (Expr.ident "owner"))] []
      { counter := 0, renameTable := ⟨[]⟩, isLhs := false, circuits := [] } rfl

/-! ## C1: the flatten pass appends single terminal Return and Finalize -/

def isRet : Stmt → Bool
  | .ret _ => true
  | _ => false

def isFinalizeInvoke : Stmt → Bool
  | .finalizeInvoke _ => true
  | _ => false

theorem foldGuards_stmts_shape (pre : String) :
    ∀ (l : List (Expr × Expr)) (c : Nat),
      ∀ s ∈ (foldGuards pre c l).2.1,
        ∃ (k : Nat) (g v acc : Expr),
          s = Stmt.assign (Expr.ident (pre ++ toString k)) (Expr.ternary g v acc) := by
  intro l
  induction l with
  | nil => intro c s hs; simp [foldGuards] at hs
  | cons p rest ih =>
    intro c s hs
    obtain ⟨g, v⟩ := p
    cases rest with
    | nil => simp [foldGuards] at hs
    | cons q rest' =>
      rcases hfold : foldGuards pre c (q :: rest') with ⟨acc, stmts, c'⟩
      simp only [foldGuards, hfold, List.mem_append, List.mem_singleton] at hs
      rcases hs with h | h
      · exact ih c s (by rw [hfold]; exact h)
      · exact ⟨c', g, v, acc, h⟩

theorem foldFinalizes_stmts_shape :
    ∀ (comps : List (List (Expr × Expr))) (i c : Nat),
      ∀ s ∈ (foldFinalizes i c comps).2.1,
        ∃ (j k : Nat) (g v acc : Expr),
          s = Stmt.assign (Expr.ident ("fin$" ++ toString j ++ "$" ++ toString k))
                (Expr.ternary g v acc) := by
  intro comps
  induction comps with
  | nil => intro i c s hs; simp [foldFinalizes] at hs
  | cons comp rest ih =>
    intro i c s hs
    rcases hg : foldGuards ("fin$" ++ toString i ++ "$") c comp with ⟨e, stmts, c'⟩
    rcases hrest : foldFinalizes (i + 1) c' rest with ⟨es, stmts', c''⟩
    simp only [foldFinalizes, hg, hrest, List.mem_append] at hs
    rcases hs with h | h
    · obtain ⟨k, g, v, acc, rfl⟩ :=
        foldGuards_stmts_shape ("fin$" ++ toString i ++ "$") comp c s (by rw [hg]; exact h)
      exact ⟨i, k, g, v, acc, rfl⟩
    · exact ih (i + 1) c' s (by rw [hrest]; exact h)

theorem countP_zero_of (p : Stmt → Bool) (l : List Stmt) (h : ∀ s ∈ l, p s = false) :
    l.countP p = 0 :=
  List.countP_eq_zero.mpr (by intro a ha; simp [h a ha])

theorem foldGuards_countP_isRet (pre : String) (c : Nat) (l : List (Expr × Expr)) :
    ((foldGuards pre c l).2.1).countP isRet = 0 := by
  refine countP_zero_of _ _ (fun s hs => ?_)
  obtain ⟨k, g, v, acc, rfl⟩ := foldGuards_stmts_shape pre l c s hs
  rfl

theorem foldGuards_countP_isFin (pre : String) (c : Nat) (l : List (Expr × Expr)) :
    ((foldGuards pre c l).2.1).countP isFinalizeInvoke = 0 := by
  refine countP_zero_of _ _ (fun s hs => ?_)
  obtain ⟨k, g, v, acc, rfl⟩ := foldGuards_stmts_shape pre l c s hs
  rfl

theorem foldFinalizes_countP_isRet (i c : Nat) (comps : List (List (Expr × Expr))) :
    ((foldFinalizes i c comps).2.1).countP isRet = 0 := by
  refine countP_zero_of _ _ (fun s hs => ?_)
  obtain ⟨j, k, g, v, acc, rfl⟩ := foldFinalizes_stmts_shape comps i c s hs
  rfl

theorem foldFinalizes_countP_isFin (i c : Nat) (comps : List (List (Expr × Expr))) :
    ((foldFinalizes i c comps).2.1).countP isFinalizeInvoke = 0 := by
  refine countP_zero_of _ _ (fun s hs => ?_)
  obtain ⟨j, k, g, v, acc, rfl⟩ := foldFinalizes_stmts_shape comps i c s hs
  rfl

theorem flattenFold_empty (pre : String) (c : Nat) (block : List Stmt)
    (returns : List (Expr × Expr)) (h : returns.isEmpty = true) :
    flattenFold pre c block returns = (block, c) := by
  simp [flattenFold, h]

theorem flattenFold_nonempty (pre : String) (c : Nat) (block : List Stmt)
    (returns : List (Expr × Expr)) (h : returns.isEmpty = false) :
    flattenFold pre c block returns =
      (block ++ (foldGuards pre c returns).2.1 ++ [Stmt.ret (foldGuards pre c returns).1],
       (foldGuards pre c returns).2.2) := by
  rcases hg : foldGuards pre c returns with ⟨e, st, c'⟩
  simp [flattenFold, h, hg]

/-- C1: after the flatten pass, the flattened finalize block and the
flattened function body each contain at most one terminal `Return` and the
body at most one terminal `Finalize` invocation, each appended after all
other statements of its fold; an empty early-return accumulator appends no
`Return` and leaves the block unchanged; the finalize block is folded before
the function body (the body fold starts at the counter the finalize fold
ended with), and the `Finalize` invocation, when any finalize accumulator
position is non-empty, is appended last, after the fold statements named
with the `ret$` and `fin$<i>$` prefixes. -/
theorem flatten_terminal_return_finalize
    (c0 : Nat) (finBlk : List Stmt) (finRets : List (Expr × Expr))
    (bodyStmts : List Stmt) (bodyReturns : List (Expr × Expr))
    (bodyFinalizes : List (List (Expr × Expr)))
    (hbr : ∀ s ∈ bodyStmts, isRet s = false)
    (hbf : ∀ s ∈ bodyStmts, isFinalizeInvoke s = false)
    (hfb : ∀ s ∈ finBlk, isRet s = false) :
    (reconstructFunction c0 (some (finBlk, finRets)) bodyStmts bodyReturns
        bodyFinalizes).finalizeBlock = some (flattenFold "ret$" c0 finBlk finRets).1 ∧
    (flattenFold "ret$" c0 finBlk finRets).1.countP isRet =
      (if finRets.isEmpty then 0 else 1) ∧
    (finRets.isEmpty = true → (flattenFold "ret$" c0 finBlk finRets).1 = finBlk) ∧
    (finRets.isEmpty = false →
       ∃ e, (flattenFold "ret$" c0 finBlk finRets).1.getLast? = some (Stmt.ret e)) ∧
    (reconstructFunction c0 (some (finBlk, finRets)) bodyStmts bodyReturns
        bodyFinalizes).body.countP isRet = (if bodyReturns.isEmpty then 0 else 1) ∧
    (reconstructFunction c0 (some (finBlk, finRets)) bodyStmts bodyReturns
        bodyFinalizes).body.countP isFinalizeInvoke =
      (if bodyFinalizes.any (fun comp => !comp.isEmpty) then 1 else 0) ∧
    (bodyReturns.isEmpty = true → bodyFinalizes.any (fun comp => !comp.isEmpty) = false →
       (reconstructFunction c0 (some (finBlk, finRets)) bodyStmts bodyReturns
          bodyFinalizes).body = bodyStmts) ∧
    (bodyFinalizes.any (fun comp => !comp.isEmpty) = true →
       ∃ args, (reconstructFunction c0 (some (finBlk, finRets)) bodyStmts bodyReturns
          bodyFinalizes).body.getLast? = some (Stmt.finalizeInvoke args)) ∧
    (bodyReturns.isEmpty = false →
       ∃ e finTail,
         (reconstructFunction c0 (some (finBlk, finRets)) bodyStmts bodyReturns
            bodyFinalizes).body =
           bodyStmts ++
             (foldGuards "ret$" (flattenFold "ret$" c0 finBlk finRets).2 bodyReturns).2.1 ++
             [Stmt.ret e] ++ finTail ∧
         (∀ s ∈ (foldGuards "ret$" (flattenFold "ret$" c0 finBlk finRets).2 bodyReturns).2.1,
            ∃ (k : Nat) (g v acc : Expr),
              s = Stmt.assign (Expr.ident ("ret$" ++ toString k)) (Expr.ternary g v acc)) ∧
         (∀ s ∈ finTail,
            (∃ (j k : Nat) (g v acc : Expr),
               s = Stmt.assign (Expr.ident ("fin$" ++ toString j ++ "$" ++ toString k))
                     (Expr.ternary g v acc)) ∨
            (∃ args, s = Stmt.finalizeInvoke args))) := by
  rcases hff : flattenFold "ret$" c0 finBlk finRets with ⟨finB, c1⟩
  rcases hbfold : flattenFold "ret$" c1 bodyStmts bodyReturns with ⟨body1, c2⟩
  rcases hfz : foldFinalizes 0 c2 bodyFinalizes with ⟨fargs, finStmts, c3⟩
  have hout : reconstructFunction c0 (some (finBlk, finRets)) bodyStmts bodyReturns
      bodyFinalizes =
      (if bodyFinalizes.any (fun comp => !comp.isEmpty) then
         { finalizeBlock := some finB,
           body := body1 ++ finStmts ++ [Stmt.finalizeInvoke fargs], counter := c3 }
       else { finalizeBlock := some finB, body := body1, counter := c2 }) := by
    simp only [reconstructFunction, hff, hbfold, hfz]
  have hb1_ret : body1.countP isRet = (if bodyReturns.isEmpty then 0 else 1) := by
    cases hbe : bodyReturns.isEmpty with
    | true =>
      rw [flattenFold_empty "ret$" c1 bodyStmts bodyReturns hbe] at hbfold
      injection hbfold with h1 h2
      subst h1
      simp [countP_zero_of isRet bodyStmts hbr]
    | false =>
      rw [flattenFold_nonempty "ret$" c1 bodyStmts bodyReturns hbe] at hbfold
      injection hbfold with h1 h2
      subst h1
      have hg := foldGuards_countP_isRet "ret$" c1 bodyReturns
      have hone : List.countP isRet [Stmt.ret (foldGuards "ret$" c1 bodyReturns).1] = 1 := rfl
      simp [List.countP_append, countP_zero_of isRet bodyStmts hbr, hg, hone]
  have hb1_fin : body1.countP isFinalizeInvoke = 0 := by
    cases hbe : bodyReturns.isEmpty with
    | true =>
      rw [flattenFold_empty "ret$" c1 bodyStmts bodyReturns hbe] at hbfold
      injection hbfold with h1 h2
      subst h1
      exact countP_zero_of isFinalizeInvoke bodyStmts hbf
    | false =>
      rw [flattenFold_nonempty "ret$" c1 bodyStmts bodyReturns hbe] at hbfold
      injection hbfold with h1 h2
      subst h1
      have hg := foldGuards_countP_isFin "ret$" c1 bodyReturns
      have hzero : List.countP isFinalizeInvoke
          [Stmt.ret (foldGuards "ret$" c1 bodyReturns).1] = 0 := rfl
      simp [List.countP_append, countP_zero_of isFinalizeInvoke bodyStmts hbf, hg, hzero]
  have hfs_ret : finStmts.countP isRet = 0 := by
    have := foldFinalizes_countP_isRet 0 c2 bodyFinalizes
    rw [hfz] at this
    exact this
  have hfs_fin : finStmts.countP isFinalizeInvoke = 0 := by
    have := foldFinalizes_countP_isFin 0 c2 bodyFinalizes
    rw [hfz] at this
    exact this
  simp only [hout]
  refine ⟨?_, ?_, ?_, ?_, ?_, ?_, ?_, ?_, ?_⟩
  · cases hany : bodyFinalizes.any (fun comp => !comp.isEmpty) <;> simp
  · -- finalize-block return count
    cases hre : finRets.isEmpty with
    | true =>
      rw [flattenFold_empty "ret$" c0 finBlk finRets hre] at hff
      injection hff with h1 h2
      subst h1
      simp [countP_zero_of isRet finBlk hfb]
    | false =>
      rw [flattenFold_nonempty "ret$" c0 finBlk finRets hre] at hff
      injection hff with h1 h2
      subst h1
      have hg := foldGuards_countP_isRet "ret$" c0 finRets
      have hone : List.countP isRet [Stmt.ret (foldGuards "ret$" c0 finRets).1] = 1 := rfl
      simp [List.countP_append, countP_zero_of isRet finBlk hfb, hg, hone]
  · intro hre
    rw [flattenFold_empty "ret$" c0 finBlk finRets hre] at hff
    injection hff with h1 h2
    exact h1.symm
  · intro hre
    rw [flattenFold_nonempty "ret$" c0 finBlk finRets hre] at hff
    injection hff with h1 h2
    refine ⟨(foldGuards "ret$" c0 finRets).1, ?_⟩
    rw [← h1]
    exact List.getLast?_concat _
  · -- body return count
    cases hany : bodyFinalizes.any (fun comp => !comp.isEmpty) with
    | false => simpa using hb1_ret
    | true =>
      have hone : List.countP isRet [Stmt.finalizeInvoke fargs] = 0 := rfl
      simp [List.countP_append, hb1_ret, hfs_ret, hone]
  · -- body finalize count
    cases hany : bodyFinalizes.any (fun comp => !comp.isEmpty) with
    | false => simpa using hb1_fin
    | true =>
      have hone : List.countP isFinalizeInvoke [Stmt.finalizeInvoke fargs] = 1 := rfl
      simp [List.countP_append, hb1_fin, hfs_fin, hone]
  · intro hbe hany
    rw [flattenFold_empty "ret$" c1 bodyStmts bodyReturns hbe] at hbfold
    injection hbfold with h1 h2
    simp [hany, h1.symm]
  · intro hany
    simp only [hany, if_true]
    exact ⟨fargs, List.getLast?_concat _⟩
  · intro hbe
    rw [flattenFold_nonempty "ret$" c1 bodyStmts bodyReturns hbe] at hbfold
    injection hbfold with h1 h2
    cases hany : bodyFinalizes.any (fun comp => !comp.isEmpty) with
    | false =>
      refine ⟨(foldGuards "ret$" c1 bodyReturns).1, [], ?_, ?_, ?_⟩
      · simp [← h1]
      · intro s hs
        exact foldGuards_stmts_shape "ret$" bodyReturns c1 s hs
      · intro s hs
        simp at hs
    | true =>
      refine ⟨(foldGuards "ret$" c1 bodyReturns).1,
        finStmts ++ [Stmt.finalizeInvoke fargs], ?_, ?_, ?_⟩
      · simp [← h1, List.append_assoc]
      · intro s hs
        exact foldGuards_stmts_shape "ret$" bodyReturns c1 s hs
      · intro s hs
        rcases List.mem_append.mp hs with h | h
        · left
          exact foldFinalizes_stmts_shape bodyFinalizes 0 c2 s (by rw [hfz]; exact h)
        · right
          exact ⟨fargs, by simpa using h⟩

/-- Witness for C1 at concrete inputs: a function with two early returns
and one finalize accumulator position folds to a body with exactly one
`Return` and a terminal `Finalize` invocation. -/
theorem flatten_terminal_return_finalize_inst :
    (∀ s ∈ ([Stmt.assign (Expr.ident "x$1") (Expr.lit "1u8")] : List Stmt),
       isRet s = false) ∧
    (∀ s ∈ ([Stmt.assign (Expr.ident "x$1") (Expr.lit "1u8")] : List Stmt),
       isFinalizeInvoke s = false) ∧
    (∀ s ∈ ([Stmt.consoleAssert (Expr.ident "a")] : List Stmt), isRet s = false) ∧
    (reconstructFunction 0
        (some ([Stmt.consoleAssert (Expr.ident "a")],
               [(Expr.lit "g0", Expr.ident "r0"), (Expr.lit "true", Expr.ident "r1")]))
        [Stmt.assign (Expr.ident "x$1") (Expr.lit "1u8")]
        [(Expr.ident "c1", Expr.lit "1u8"), (Expr.lit "true", Expr.lit "2u8")]
        [[(Expr.ident "c1", Expr.ident "x$1"), (Expr.lit "true", Expr.ident "y")]]).body.countP
      isRet = 1 ∧
    (∃ args,
       (reconstructFunction 0
          (some ([Stmt.consoleAssert (Expr.ident "a")],
                 [(Expr.lit "g0", Expr.ident "r0"), (Expr.lit "true", Expr.ident "r1")]))
          [Stmt.assign (Expr.ident "x$1") (Expr.lit "1u8")]
          [(Expr.ident "c1", Expr.lit "1u8"), (Expr.lit "true", Expr.lit "2u8")]
          [[(Expr.ident "c1", Expr.ident "x$1"), (Expr.lit "true", Expr.ident "y")]]).body.getLast? =
        some (Stmt.finalizeInvoke args)) := by
  have h := flatten_terminal_return_finalize 0
    [Stmt.consoleAssert (Expr.ident "a")]
    [(Expr.lit "g0", Expr.ident "r0"), (Expr.lit "true", Expr.ident "r1")]
    [Stmt.assign (Expr.ident "x$1") (Expr.lit "1u8")]
    [(Expr.ident "c1", Expr.lit "1u8"), (Expr.lit "true", Expr.lit "2u8")]
    [[(Expr.ident "c1", Expr.ident "x$1"), (Expr.lit "true", Expr.ident "y")]]
    (by decide) (by decide) (by decide)
  refine ⟨by decide, by decide, by decide, ?_, ?_⟩
  · simpa using h.2.2.2.2.1
  · exact h.2.2.2.2.2.2.2.1 (by decide)

/-! ## C2: the three cases of ternary consumption -/

/-- Ordered member identifiers produced by the member-wise ternary
expansion: the circuit's declared member names, in declaration order. -/
theorem ternaryMembers_ids (tab : SymTab) (condExpr : Expr) (a b : Symbol) :
    ∀ (members : List (Symbol × String)) (k : Nat) (s : St)
      (ms : List CircuitVarInit) (st : List Stmt) (s' : St),
      ternaryMembers tab k s condExpr a b members = .ok (ms, st, s') →
      ms.map CircuitVarInit.identifier = members.map Prod.fst := by
  intro members
  induction members with
  | nil =>
    intro k s ms st s' h
    cases k with
    | zero => simp [ternaryMembers] at h
    | succ n =>
      simp [ternaryMembers] at h
      obtain ⟨rfl, -, -⟩ := h
      rfl
  | cons p rest ih =>
    intro k s ms st s' h
    obtain ⟨id, ty⟩ := p
    cases k with
    | zero => simp [ternaryMembers] at h
    | succ n =>
      rw [ternaryMembers.eq_def] at h
      cases h1 : consumeTernary tab n s condExpr
          (Expr.access (AccessExpr.member (Expr.ident a) id))
          (Expr.access (AccessExpr.member (Expr.ident b) id)) with
      | error e => simp [h1] at h
      | ok v =>
        obtain ⟨e, st1, s1⟩ := v
        cases h2 : ternaryMembers tab n s1 condExpr a b rest with
        | error e2 => simp [h1, h2] at h
        | ok v2 =>
          obtain ⟨ms2, st2, s2⟩ := v2
          simp only [h1, h2, exceptBindOk] at h
          obtain ⟨rfl, -, -⟩ := by
            simpa using h
          simp [CircuitVarInit.identifier, ih _ _ _ _ _ h2]

/-- C2: ternary consumption first consumes the condition, then the if-true
branch, then the if-false branch, and then splits into three cases: two
tuple branches produce a tuple of element-wise recursive ternaries with no
binding for the outer tuple; two identifiers recorded in the circuits map
with the same composite type found in the symbol table expand member-wise
and the composite is bound through the circuit-initializer path; otherwise
a single scalar ternary is bound to a fresh name and that fresh identifier
is returned. -/
theorem consume_ternary_cases :
    (∀ (n : Nat) (tab : SymTab) (s : St) (c t f condExpr : Expr)
       (st1 : List Stmt) (s1 : St) (firstEls : List Expr) (st2 : List Stmt) (s2 : St)
       (secondEls : List Expr) (st3 : List Stmt) (s3 : St)
       (elements : List Expr) (st4 : List Stmt) (s4 : St),
       consumeExpression tab n s c = .ok (condExpr, st1, s1) →
       consumeExpression tab n s1 t = .ok (Expr.tuple firstEls, st2, s2) →
       consumeExpression tab n s2 f = .ok (Expr.tuple secondEls, st3, s3) →
       firstEls.length = secondEls.length →
       ternaryElements tab n s3 condExpr (firstEls.zip secondEls) = .ok (elements, st4, s4) →
       consumeTernary tab (n + 1) s c t f =
         .ok (Expr.tuple elements, st1 ++ st2 ++ st3 ++ st4, s4)) ∧
    (∀ (n : Nat) (tab : SymTab) (s : St) (c t f condExpr : Expr)
       (st1 : List Stmt) (s1 : St) (a : Symbol) (st2 : List Stmt) (s2 : St)
       (b : Symbol) (st3 : List Stmt) (s3 : St) (ty : Symbol) (decl : Circuit)
       (ms : List CircuitVarInit) (st4 : List Stmt) (s4 : St)
       (e : Expr) (st5 : List Stmt) (s5 : St),
       consumeExpression tab n s c = .ok (condExpr, st1, s1) →
       consumeExpression tab n s1 t = .ok (Expr.ident a, st2, s2) →
       consumeExpression tab n s2 f = .ok (Expr.ident b, st3, s3) →
       s3.circuits.lookup a = some ty →
       s3.circuits.lookup b = some ty →
       lookupCircuit tab ty = some decl →
       ternaryMembers tab n s3 condExpr a b decl.members = .ok (ms, st4, s4) →
       consumeCircuitInit tab n s4 decl.identifier ms = .ok (e, st5, s5) →
       consumeTernary tab (n + 1) s c t f =
         .ok (e, st1 ++ st2 ++ st3 ++ st4 ++ st5, s5)) ∧
    (∀ (n : Nat) (tab : SymTab) (s : St) (c t f condExpr : Expr)
       (st1 : List Stmt) (s1 : St) (tE : Expr) (st2 : List Stmt) (s2 : St)
       (fE : Expr) (st3 : List Stmt) (s3 : St),
       consumeExpression tab n s c = .ok (condExpr, st1, s1) →
       consumeExpression tab n s1 t = .ok (tE, st2, s2) →
       consumeExpression tab n s2 f = .ok (fE, st3, s3) →
       (∀ es1 es2, ¬(tE = Expr.tuple es1 ∧ fE = Expr.tuple es2)) →
       (∀ a b, tE = Expr.ident a → fE = Expr.ident b →
          ((s3.circuits.lookup a).isSome && (s3.circuits.lookup b).isSome) = false) →
       consumeTernary tab (n + 1) s c t f =
         .ok (Expr.ident (uniqueSymbol "$var" s3.counter),
              st1 ++ st2 ++ st3 ++
                [Stmt.assign (Expr.ident (uniqueSymbol "$var" s3.counter))
                   (Expr.ternary condExpr tE fE)],
              { s3 with counter := s3.counter + 1 })) := by
  refine ⟨?_, ?_, ?_⟩
  · intro n tab s c t f condExpr st1 s1 firstEls st2 s2 secondEls st3 s3
      elements st4 s4 hc ht hf hlen he
    simp [consumeTernary, hc, ht, hf, hlen, he]
  · intro n tab s c t f condExpr st1 s1 a st2 s2 b st3 s3 ty decl ms st4 s4
      e st5 s5 hc ht hf hca hcb hlc hm hci
    simp [consumeTernary, hc, ht, hf, hca, hcb, hlc, hm, hci]
  · intro n tab s c t f condExpr st1 s1 tE st2 s2 fE st3 s3 hc ht hf htt hii
    have hred : consumeTernary tab (n + 1) s c t f =
        scalarTernary s3 (st1 ++ st2 ++ st3) condExpr tE fE := by
      rw [consumeTernary.eq_def]
      simp only [hc, ht, hf, exceptBindOk]
      cases tE <;> cases fE <;>
        first
          | exact absurd ⟨rfl, rfl⟩ (htt _ _)
          | (simp only [hii _ _ rfl rfl]; rfl)
          | rfl
    rw [hred]
    simp [scalarTernary, uniqueSimpleAssign]

/-- Witness for C2 at concrete inputs, one per case: a tuple-pair ternary
returning an unbound tuple of element ternaries, a circuit-pair ternary
expanding member-wise and binding the composite, and a scalar ternary bound
to a fresh name. -/
theorem consume_ternary_cases_inst :
    (consumeTernary [] 6
        { counter := 0, renameTable := ⟨[]⟩, isLhs := false, circuits := [] }
        (Expr.lit "c") (Expr.tuple [Expr.lit "1u8"]) (Expr.tuple [Expr.lit "2u8"]) =
      .ok (Expr.tuple [Expr.ident "$var$0"],
           [Stmt.assign (Expr.ident "$var$0")
              (Expr.ternary (Expr.lit "c") (Expr.lit "1u8") (Expr.lit "2u8"))],
           { counter := 1, renameTable := ⟨[]⟩, isLhs := false, circuits := [] })) ∧
    (({ counter := 0, renameTable := ⟨[]⟩, isLhs := false,
        circuits := [("p", "Pair"), ("q", "Pair")] } : St).circuits.lookup "p" = some "Pair" ∧
     lookupCircuit [("Pair", ⟨"Pair", [("x", "u8")]⟩)] "Pair" =
       some ⟨"Pair", [("x", "u8")]⟩ ∧
     consumeTernary [("Pair", ⟨"Pair", [("x", "u8")]⟩)] 7
        { counter := 0, renameTable := ⟨[]⟩, isLhs := false,
          circuits := [("p", "Pair"), ("q", "Pair")] }
        (Expr.lit "c") (Expr.ident "p") (Expr.ident "q") =
      .ok (Expr.ident "$var$3",
           [Stmt.assign (Expr.ident "$var$0")
              (Expr.access (AccessExpr.member (Expr.ident "p") "x")),
            Stmt.assign (Expr.ident "$var$1")
              (Expr.access (AccessExpr.member (Expr.ident "q") "x")),
            Stmt.assign (Expr.ident "$var$2")
              (Expr.ternary (Expr.lit "c") (Expr.ident "$var$0") (Expr.ident "$var$1")),
            Stmt.assign (Expr.ident "$var$3")
              (Expr.circuitInit "Pair" [CircuitVarInit.mk "x" (some (Expr.ident "$var$2"))])],
           { counter := 4, renameTable := ⟨[]⟩, isLhs := false,
             circuits := [("$var$3", "Pair"), ("p", "Pair"), ("q", "Pair")] })) ∧
    (consumeTernary [] 3
        { counter := 0, renameTable := ⟨[]⟩, isLhs := false, circuits := [] }
        (Expr.lit "c") (Expr.lit "1u8") (Expr.lit "2u8") =
      .ok (Expr.ident "$var$0",
           [Stmt.assign (Expr.ident "$var$0")
              (Expr.ternary (Expr.lit "c") (Expr.lit "1u8") (Expr.lit "2u8"))],
           { counter := 1, renameTable := ⟨[]⟩, isLhs := false, circuits := [] })) := by
  refine ⟨?_, ⟨rfl, rfl, ?_⟩, ?_⟩
  · exact consume_ternary_cases.1 5 []
      { counter := 0, renameTable := ⟨[]⟩, isLhs := false, circuits := [] }
      (Expr.lit "c") (Expr.tuple [Expr.lit "1u8"]) (Expr.tuple [Expr.lit "2u8"])
      (Expr.lit "c") [] _ [Expr.lit "1u8"] [] _ [Expr.lit "2u8"] [] _
      [Expr.ident "$var$0"] _ _ rfl rfl rfl rfl rfl
  · exact consume_ternary_cases.2.1 6 [("Pair", ⟨"Pair", [("x", "u8")]⟩)]
      { counter := 0, renameTable := ⟨[]⟩, isLhs := false,
        circuits := [("p", "Pair"), ("q", "Pair")] }
      (Expr.lit "c") (Expr.ident "p") (Expr.ident "q")
      (Expr.lit "c") [] _ "p" [] _ "q" [] _ "Pair" ⟨"Pair", [("x", "u8")]⟩
      [CircuitVarInit.mk "x" (some (Expr.ident "$var$2"))] _ _
      (Expr.ident "$var$3") _ _
      rfl rfl rfl rfl rfl rfl rfl rfl
  · exact consume_ternary_cases.2.2 2 []
      { counter := 0, renameTable := ⟨[]⟩, isLhs := false, circuits := [] }
      (Expr.lit "c") (Expr.lit "1u8") (Expr.lit "2u8")
      (Expr.lit "c") [] _ (Expr.lit "1u8") [] _ (Expr.lit "2u8") [] _
      rfl rfl rfl
      (fun es1 es2 h => nomatch h.1)
      (fun a b ha _hb => nomatch ha)

/-! ## C9: the composite ternary dispatch cannot panic under its precondition -/

/-- C9: when both branch identifiers are recorded in the circuits map with
the same composite type and that type exists in the symbol table, the
composite arm of `consume_ternary` passes its unchecked unwraps and its
`assert_eq!` (both symbol-table lookups return the same declaration) and the
consumption reduces to the member-wise expansion followed by the
circuit-initializer binding; the expanded members follow the declaration's
member order. -/
theorem consume_ternary_circuit_no_panic
    (m : Nat) (tab : SymTab) (s : St) (g : String) (a b ty : Symbol) (decl : Circuit)
    (hlhs : s.isLhs = false)
    (hra : s.renameTable.lookup a = none)
    (hrb : s.renameTable.lookup b = none)
    (hca : s.circuits.lookup a = some ty)
    (hcb : s.circuits.lookup b = some ty)
    (hlc : lookupCircuit tab ty = some decl) :
    (consumeTernary tab (m + 2) s (Expr.lit g) (Expr.ident a) (Expr.ident b) = (do
       let (members, st4, s4) ← ternaryMembers tab (m + 1) s (Expr.lit g) a b decl.members
       let (expr, st5, s5) ← consumeCircuitInit tab (m + 1) s4 decl.identifier members
       Except.ok (expr, st4 ++ st5, s5))) ∧
    (∀ (k : Nat) (s' : St) (condExpr : Expr) (ms : List CircuitVarInit)
       (st : List Stmt) (s'' : St),
       ternaryMembers tab k s' condExpr a b decl.members = .ok (ms, st, s'') →
       ms.map CircuitVarInit.identifier = decl.members.map Prod.fst) := by
  constructor
  · have h1 : consumeExpression tab (m + 1) s (Expr.lit g) = .ok (Expr.lit g, [], s) := rfl
    have h2 : consumeExpression tab (m + 1) s (Expr.ident a) = .ok (Expr.ident a, [], s) := by
      have hbase : consumeExpression tab (m + 1) s (Expr.ident a) =
          .ok (consumeIdentifier s a) := rfl
      rw [hbase]
      simp [consumeIdentifier, hlhs, hra]
    have h3 : consumeExpression tab (m + 1) s (Expr.ident b) = .ok (Expr.ident b, [], s) := by
      have hbase : consumeExpression tab (m + 1) s (Expr.ident b) =
          .ok (consumeIdentifier s b) := rfl
      rw [hbase]
      simp [consumeIdentifier, hlhs, hrb]
    rw [consumeTernary.eq_def]
    simp only [h1, h2, h3, exceptBindOk, hca, hcb, hlc, Option.isSome_some, Bool.and_self,
      if_true, List.nil_append]
  · intro k s' condExpr ms st s'' h
    exact ternaryMembers_ids tab condExpr a b decl.members k s' ms st s'' h

/-- Witness for C9 at concrete inputs: two identifiers recorded with the
same `Token` type, the type present in the symbol table; the consumption
reduces to the member expansion and the expanded member identifiers follow
the declaration order `amount`, `owner`. -/
theorem consume_ternary_circuit_no_panic_inst :
    (({ counter := 0, renameTable := ⟨[]⟩, isLhs := false,
        circuits := [("x", "Token"), ("y", "Token")] } : St).circuits.lookup "x" =
       some "Token" ∧
     ({ counter := 0, renameTable := ⟨[]⟩, isLhs := false,
        circuits := [("x", "Token"), ("y", "Token")] } : St).circuits.lookup "y" =
       some "Token" ∧
     lookupCircuit [("Token", ⟨"Token", [("amount", "u64"), ("owner", "address")]⟩)] "Token" =
       some ⟨"Token", [("amount", "u64"), ("owner", "address")]⟩) ∧
    (consumeTernary [("Token", ⟨"Token", [("amount", "u64"), ("owner", "address")]⟩)] 7
        { counter := 0, renameTable := ⟨[]⟩, isLhs := false,
          circuits := [("x", "Token"), ("y", "Token")] }
        (Expr.lit "c") (Expr.ident "x") (Expr.ident "y") = (do
       let (members, st4, s4) ←
         ternaryMembers [("Token", ⟨"Token", [("amount", "u64"), ("owner", "address")]⟩)] 6
           { counter := 0, renameTable := ⟨[]⟩, isLhs := false,
             circuits := [("x", "Token"), ("y", "Token")] }
           (Expr.lit "c") "x" "y"
           (Circuit.members ⟨"Token", [("amount", "u64"), ("owner", "address")]⟩)
       let (expr, st5, s5) ←
         consumeCircuitInit [("Token", ⟨"Token", [("amount", "u64"), ("owner", "address")]⟩)] 6
           s4 (Circuit.identifier ⟨"Token", [("amount", "u64"), ("owner", "address")]⟩) members
       Except.ok (expr, st4 ++ st5, s5))) ∧
    ([CircuitVarInit.mk "amount" (some (Expr.ident "$var$2")),
      CircuitVarInit.mk "owner" (some (Expr.ident "$var$5"))].map CircuitVarInit.identifier =
       ([("amount", "u64"), ("owner", "address")] : List (Symbol × String)).map Prod.fst) := by
  refine ⟨⟨rfl, rfl, rfl⟩, ?_, ?_⟩
  · exact (consume_ternary_circuit_no_panic 5
      [("Token", ⟨"Token", [("amount", "u64"), ("owner", "address")]⟩)]
      { counter := 0, renameTable := ⟨[]⟩, isLhs := false,
        circuits := [("x", "Token"), ("y", "Token")] }
      "c" "x" "y" "Token" ⟨"Token", [("amount", "u64"), ("owner", "address")]⟩
      rfl rfl rfl rfl rfl rfl).1
  · exact (consume_ternary_circuit_no_panic 5
      [("Token", ⟨"Token", [("amount", "u64"), ("owner", "address")]⟩)]
      { counter := 0, renameTable := ⟨[]⟩, isLhs := false,
        circuits := [("x", "Token"), ("y", "Token")] }
      "c" "x" "y" "Token" ⟨"Token", [("amount", "u64"), ("owner", "address")]⟩
      rfl rfl rfl rfl rfl rfl).2 6
      { counter := 0, renameTable := ⟨[]⟩, isLhs := false,
        circuits := [("x", "Token"), ("y", "Token")] }
      (Expr.lit "c")
      [CircuitVarInit.mk "amount" (some (Expr.ident "$var$2")),
       CircuitVarInit.mk "owner" (some (Expr.ident "$var$5"))]
      _ _ rfl

/-! ## C8: the output-file writer -/

/-- C8 as stated is false on the code: when `write_all` fails mid-write the
partially written file is left on disk (it is not removed), and the surfaced
error wraps the underlying io error rather than the file path. -/
theorem write_to_error_keeps_file :
    (writeTo "test" [] "outputs/test.aleo" "function main:\n"
        { createOk := true, writeOk := false, written := 7 }).2 =
      .error (.ioErrorAleoFile "write failed") ∧
    readFile (writeTo "test" [] "outputs/test.aleo" "function main:\n"
        { createOk := true, writeOk := false, written := 7 }).1 "outputs/test.aleo" =
      some "program" := by
  constructor
  · rfl
  · rfl

/-- C8 amended: on success the writer stores exactly
`program <package-name>;` followed by a blank line and the bytecode string;
when `write_all` fails it surfaces `io_error_aleo_file` wrapping the io
error (without the path) and leaves the partially written prefix on disk;
when `File::create` fails it surfaces the same error kind and the file
system is untouched. -/
theorem write_to_behavior :
    (∀ (pkg : String) (fs : Fs) (path aleo : String) (io : IoFault),
       io.createOk = true → io.writeOk = true →
       writeTo pkg fs path aleo io =
         (setFile (setFile fs path "") path ("program " ++ pkg ++ ";\n\n" ++ aleo), .ok ())) ∧
    (∀ (pkg : String) (fs : Fs) (path aleo : String) (io : IoFault),
       io.createOk = true → io.writeOk = false →
       (writeTo pkg fs path aleo io).2 = .error (.ioErrorAleoFile "write failed") ∧
       readFile (writeTo pkg fs path aleo io).1 path =
         some (("program " ++ pkg ++ ";\n\n" ++ aleo).take io.written)) ∧
    (∀ (pkg : String) (fs : Fs) (path aleo : String) (io : IoFault),
       io.createOk = false →
       writeTo pkg fs path aleo io = (fs, .error (.ioErrorAleoFile "create failed"))) := by
  refine ⟨?_, ?_, ?_⟩
  · intro pkg fs path aleo io h1 h2
    simp [writeTo, h1, h2]
  · intro pkg fs path aleo io h1 h2
    constructor
    · simp [writeTo, h1, h2]
    · simp only [writeTo, h1, h2]
      simpa using readFile_setFile _ path _
  · intro pkg fs path aleo io h1
    simp [writeTo, h1]

/-- Witness for the amended C8 at concrete inputs: one successful write, one
mid-write failure leaving a prefix behind, one failed create leaving the
file system untouched. -/
theorem write_to_behavior_inst :
    writeTo "tictactoe" [] "outputs/tictactoe.aleo" "function main:\n"
        { createOk := true, writeOk := true, written := 0 } =
      (setFile (setFile [] "outputs/tictactoe.aleo" "") "outputs/tictactoe.aleo"
         ("program " ++ "tictactoe" ++ ";\n\n" ++ "function main:\n"), .ok ()) ∧
    ((writeTo "tictactoe" [] "outputs/tictactoe.aleo" "function main:\n"
        { createOk := true, writeOk := false, written := 9 }).2 =
       .error (.ioErrorAleoFile "write failed") ∧
     readFile (writeTo "tictactoe" [] "outputs/tictactoe.aleo" "function main:\n"
        { createOk := true, writeOk := false, written := 9 }).1 "outputs/tictactoe.aleo" =
       some (("program " ++ "tictactoe" ++ ";\n\n" ++ "function main:\n").take 9)) ∧
    writeTo "tictactoe" [("keep", "me")] "outputs/tictactoe.aleo" "function main:\n"
        { createOk := false, writeOk := true, written := 0 } =
      ([("keep", "me")], .error (.ioErrorAleoFile "create failed")) := by
  refine ⟨?_, ?_, ?_⟩
  · exact write_to_behavior.1 "tictactoe" [] "outputs/tictactoe.aleo" "function main:\n" _ rfl rfl
  · exact write_to_behavior.2.1 "tictactoe" [] "outputs/tictactoe.aleo" "function main:\n" _ rfl rfl
  · exact write_to_behavior.2.2 "tictactoe" [("keep", "me")] "outputs/tictactoe.aleo"
      "function main:\n" _ rfl

end LeoMiddleEnd
